import Mathlib

/-!
Shallow embedding of the process-lifecycle coordinator of `xornet-sl/xcommon`
(the signal/termination section of `parseCmdLine.go` and `globalContext.go`),
together with theorems settling the spec claims about it.

Times are modelled in milliseconds as `Nat`; signals and handler pointers are
modelled as `Nat` codes (pointer identity), with `Option Nat` wherever the Go
code can receive a `nil` handler pointer or a `nil` signal value.
-/

namespace XCommon

/-! ## Termination state machine (parseCmdLine.go, signals section)

Go constants:
  gracefullShutdownTimeout = 1500 * time.Millisecond
  prolongedShutdownTimeout = 10 * time.Second
-/

def gracefullShutdownTimeout : Nat := 1500

def prolongedShutdownTimeout : Nat := 10000

/-- The three distinguishable usage errors of `RequestSlowTermination`
(Go: `SlowShutdownWithoutTermination`, `SlowShutdownNeedAReason`,
`SlowShutdownRequestedAlready`). -/
inductive SlowShutdownError
  | withoutTermination
  | needAReason
  | requestedAlready
deriving DecidableEq, Repr

/-- Go: the `_termination` struct
`{Started bool; StartedAt time.Time; Prolonged bool; Deadline time.Time}`. -/
structure Termination where
  Started : Bool
  StartedAt : Nat
  Prolonged : Bool
  Deadline : Nat
deriving DecidableEq, Repr

/-- Zero value of the `_termination` struct at process start. -/
def initialTermination : Termination :=
  { Started := false, StartedAt := 0, Prolonged := false, Deadline := 0 }

/-- Go `RequestSlowTermination(reason string) error`: the returned error (if
any) together with the `_termination` state after the call.  Faithful to
the source order of checks: empty reason, then `!Started`, then `Prolonged`;
on success sets `Prolonged = true` and adds `prolongedShutdownTimeout` to
`Deadline`. -/
def RequestSlowTermination (reason : String) (t : Termination) :
    Option SlowShutdownError × Termination :=
  if reason = "" then
    (some SlowShutdownError.needAReason, t)
  else if !t.Started then
    (some SlowShutdownError.withoutTermination, t)
  else if t.Prolonged then
    (some SlowShutdownError.requestedAlready, t)
  else
    (none, { t with Prolonged := true,
                    Deadline := t.Deadline + prolongedShutdownTimeout })

/-- Go `GetTerminationDeadline() time.Time`: returns the zero time (modelled
as `0`) when `!Started`, else the current `Deadline`. -/
def GetTerminationDeadline (t : Termination) : Nat :=
  if !t.Started then 0 else t.Deadline

/-- The state-mutation block of Go `defaultSigTermHandler` (the body of the
first locked `func()` literal): unconditionally sets
`Started = true; Prolonged = false; StartedAt = now;
Deadline = StartedAt + gracefullShutdownTimeout`.  This block runs on every
trigger (`_terminate`, reached from `checkTermSignals` or `Terminate`) while
the default handler is configured; the source contains no check of the
previous state. -/
def terminationTriggerStep (now : Nat) (_t : Termination) : Termination :=
  { Started := true, Prolonged := false, StartedAt := now,
    Deadline := now + gracefullShutdownTimeout }

/-- Atomic operations on the termination state: a termination trigger
(termination-class signal through `checkTermSignals`, or internal
`Terminate`, both funnelled through `_terminate` into the default handler)
at a given time, or a `RequestSlowTermination` call. -/
inductive TermOp
  | trigger (now : Nat)
  | requestSlow (reason : String)
deriving DecidableEq, Repr

/-- One step of the termination state machine. -/
def termStep (t : Termination) : TermOp → Termination
  | TermOp.trigger now => terminationTriggerStep now t
  | TermOp.requestSlow reason => (RequestSlowTermination reason t).2

/-- Run a sequence of termination-state operations from the initial
(unstarted) state. -/
def termRun (ops : List TermOp) : Termination :=
  ops.foldl termStep initialTermination

/-! ## Signal registry (parseCmdLine.go, signals section)

`os.Signal` values are `Nat` codes (Interrupt = 2, SIGTERM = 15, SIGABRT = 6,
SIGUSR1 = 10, ...); `*OSSignalHandler` pointers are `Nat` identities.  A Go
`nil` handler pointer or `nil` signal is `none`.  The `_signals` map is an
association list with unique keys, and the set of signals with a live OS
subscription (`signal.Notify` minus `signal.Reset`) is tracked explicitly. -/

abbrev Sig := Nat

abbrev HandlerPtr := Nat

/-- Go `_defaultTermSignals = []os.Signal{os.Interrupt, syscall.SIGTERM}`. -/
def _defaultTermSignals : List Sig := [2, 15]

/-- Go `isTerminationSignal`. -/
def isTerminationSignal (sig : Sig) : Bool :=
  _defaultTermSignals.contains sig

/-- Map read `_signals[sig]` (presence-aware, as in `v, ok := _signals[sig]`). -/
def lookupSig (m : List (Sig × List HandlerPtr)) (sig : Sig) :
    Option (List HandlerPtr) :=
  match m with
  | [] => none
  | (s, hs) :: rest => if s = sig then some hs else lookupSig rest sig

/-- Map write `_signals[sig] = hs` (updates the entry, or inserts it). -/
def setSig (m : List (Sig × List HandlerPtr)) (sig : Sig)
    (hs : List HandlerPtr) : List (Sig × List HandlerPtr) :=
  match m with
  | [] => [(sig, hs)]
  | (s, old) :: rest =>
    if s = sig then (s, hs) :: rest else (s, old) :: setSig rest sig hs

/-- Map delete `delete(_signals, sig)`. -/
def delSig (m : List (Sig × List HandlerPtr)) (sig : Sig) :
    List (Sig × List HandlerPtr) :=
  m.filter (fun p => p.1 ≠ sig)

/-- The shared mutable signal state: the `_signals` map plus the set of
signals currently subscribed at the OS level into `_signalChan`. -/
structure SignalsState where
  signals : List (Sig × List HandlerPtr)
  subscribed : List Sig
deriving DecidableEq, Repr

/-- Effect of `signal.Notify(_signalChan, sig)` on the subscription set. -/
def signalNotify (subs : List Sig) (sig : Sig) : List Sig :=
  if subs.contains sig then subs else subs ++ [sig]

/-- Effect of `signal.Reset(sig)` on the subscription set. -/
def signalReset (subs : List Sig) (sig : Sig) : List Sig :=
  subs.filter (fun s => s ≠ sig)

/-- Go `_carefullyNotifySignal`: subscribe unless a termination signal. -/
def _carefullyNotifySignal (sig : Sig) (subs : List Sig) : List Sig :=
  if !isTerminationSignal sig then signalNotify subs sig else subs

/-- Go `_carefullyResetSignal`: reset unless a termination signal. -/
def _carefullyResetSignal (sig : Sig) (subs : List Sig) : List Sig :=
  if !isTerminationSignal sig then signalReset subs sig else subs

/-- State right after `SetupSignalWatcher`: empty registry, the two
termination-class signals subscribed (`signal.Notify(_signalChan,
os.Interrupt, syscall.SIGTERM)`). -/
def initialSignalsState : SignalsState :=
  { signals := [], subscribed := [2, 15] }

/-- Body of the per-signal loop of Go `BindHandlerToSignals`: skip `nil`
signals; look for the handler in the current list; if absent, subscribe when
the signal had no map entry, then append the handler. -/
def bindOne (handler : HandlerPtr) (st : SignalsState) (sig? : Option Sig) :
    SignalsState :=
  match sig? with
  | none => st
  | some sig =>
    let existing := lookupSig st.signals sig
    let handlerFound := (existing.getD []).contains handler
    if handlerFound then st
    else
      let subs := if existing.isNone
        then _carefullyNotifySignal sig st.subscribed
        else st.subscribed
      { signals := setSig st.signals sig ((existing.getD []) ++ [handler]),
        subscribed := subs }

/-- Go `BindHandlerToSignals(handler *OSSignalHandler, signals ...os.Signal)`:
no-op on a `nil` handler or an empty signal list. -/
def BindHandlerToSignals (handler : Option HandlerPtr)
    (sigs : List (Option Sig)) (st : SignalsState) : SignalsState :=
  match handler with
  | none => st
  | some h => if sigs.isEmpty then st else sigs.foldl (bindOne h) st

/-- Go `_removeFromSignalsHandlers(origin, removed []*OSSignalHandler)`:
for each origin handler the inner loop walks all removed handlers, skipping
`nil` ones, appending the origin handler once per non-matching removed
handler and setting `updated` on a match; the rebuilt list is returned only
when `updated` was set. -/
def _removeFromSignalsHandlers (origin : List HandlerPtr)
    (removed : List (Option HandlerPtr)) : List HandlerPtr :=
  let r := origin.foldl
    (fun (acc : List HandlerPtr × Bool) originHandler =>
      removed.foldl
        (fun acc2 removingHandler =>
          match removingHandler with
          | none => acc2
          | some rh =>
            if rh ≠ originHandler then (acc2.1 ++ [originHandler], acc2.2)
            else (acc2.1, true))
        acc)
    ([], false)
  if r.2 then r.1 else origin

/-- Go `UnbindHandlers(handlers ...*OSSignalHandler)`: no-op on an empty
list; otherwise runs `_removeFromSignalsHandlers` on every map entry,
collects the signals whose list became empty, resets and deletes them. -/
def UnbindHandlers (handlers : List (Option HandlerPtr))
    (st : SignalsState) : SignalsState :=
  if handlers.isEmpty then st
  else
    let newSignals := st.signals.map
      (fun p => (p.1, _removeFromSignalsHandlers p.2 handlers))
    let signalsToDelete := (newSignals.filter (fun p => p.2.isEmpty)).map Prod.fst
    { signals := newSignals.filter (fun p => !p.2.isEmpty),
      subscribed := signalsToDelete.foldl
        (fun subs sig => _carefullyResetSignal sig subs) st.subscribed }

/-- Body of the per-signal loop of Go `UnbindHandlerFromSignals`: skip `nil`
signals and signals without a map entry; remove the single handler; when the
list empties, reset the signal and delete the entry. -/
def unbindFromOne (handler : HandlerPtr) (st : SignalsState)
    (sig? : Option Sig) : SignalsState :=
  match sig? with
  | none => st
  | some sig =>
    match lookupSig st.signals sig with
    | none => st
    | some sigHandlers =>
      let newList := _removeFromSignalsHandlers sigHandlers [some handler]
      if newList.isEmpty then
        { signals := delSig st.signals sig,
          subscribed := _carefullyResetSignal sig st.subscribed }
      else
        { st with signals := setSig st.signals sig newList }

/-- Go `UnbindHandlerFromSignals(handler *OSSignalHandler,
signals ...os.Signal)`: no-op on a `nil` handler or an empty signal list. -/
def UnbindHandlerFromSignals (handler : Option HandlerPtr)
    (sigs : List (Option Sig)) (st : SignalsState) : SignalsState :=
  match handler with
  | none => st
  | some h => if sigs.isEmpty then st else sigs.foldl (unbindFromOne h) st

/-- Go `UnbindSignals(signals ...os.Signal)`: for each signal,
`_carefullyResetSignal` then `delete(_signals, sig)`. -/
def UnbindSignals (sigs : List Sig) (st : SignalsState) : SignalsState :=
  if sigs.isEmpty then st
  else sigs.foldl
    (fun st sig =>
      { signals := delSig st.signals sig,
        subscribed := _carefullyResetSignal sig st.subscribed })
    st

/-- Go `UnbindAllSignals`: replaces `_signals` with a fresh empty map.  The
source calls neither `signal.Reset` nor `_carefullyResetSignal` here, so the
subscription set is left untouched. -/
def UnbindAllSignals (st : SignalsState) : SignalsState :=
  { signals := [], subscribed := st.subscribed }

/-- The public register/unregister operations on the signal registry. -/
inductive RegOp
  | bind (handler : Option HandlerPtr) (sigs : List (Option Sig))
  | unbindHandlers (handlers : List (Option HandlerPtr))
  | unbindHandlerFromSignals (handler : Option HandlerPtr)
      (sigs : List (Option Sig))
  | unbindSignals (sigs : List Sig)
  | unbindAllSignals
deriving DecidableEq, Repr

/-- One registry operation applied to the signal state. -/
def regStep (st : SignalsState) : RegOp → SignalsState
  | RegOp.bind handler sigs => BindHandlerToSignals handler sigs st
  | RegOp.unbindHandlers handlers => UnbindHandlers handlers st
  | RegOp.unbindHandlerFromSignals handler sigs =>
      UnbindHandlerFromSignals handler sigs st
  | RegOp.unbindSignals sigs => UnbindSignals sigs st
  | RegOp.unbindAllSignals => UnbindAllSignals st

/-- Run a sequence of registry operations from the post-watcher-setup state. -/
def regRun (ops : List RegOp) : SignalsState :=
  ops.foldl regStep initialSignalsState

/-! ## Signal dispatcher (parseCmdLine.go, `dispatchSignals`)

A handler invocation is abstracted by a behavior map from the handler
pointer to the error it returns and the wall-clock time it runs for
(milliseconds).  The shared fast context is `context.WithTimeout(ctx,
100*time.Millisecond)` created at dispatch start, so after the handlers run
for a cumulative `elapsed`, the non-blocking `select` on `fastCtx.Done()`
reports the deadline elapsed exactly when `fastCtxTimeout ≤ elapsed`. -/

/-- Classification of the error a handler returns: `nil`,
`OSSignalStopPropagationError`, or any other error (logged and ignored). -/
inductive HandlerOutcome
  | ok
  | stopPropagation
  | otherError
deriving DecidableEq, Repr

def fastCtxTimeout : Nat := 100

/-- The `for idx := len(sigHandlers) - 1; idx >= 0; idx--` loop of Go
`dispatchSignals`, embedded as a walk over the reversed handler list with the
cumulative elapsed time as accumulator: invoke the handler, break on
`OSSignalStopPropagationError`, then break when `fastCtx` is already done.
Returns the trace of invoked handlers, in invocation order. -/
def dispatchLoop (behavior : HandlerPtr → HandlerOutcome × Nat) :
    List HandlerPtr → Nat → List HandlerPtr
  | [], _ => []
  | sigHandler :: rest, elapsed =>
    let elapsed2 := elapsed + (behavior sigHandler).2
    if (behavior sigHandler).1 = HandlerOutcome.stopPropagation then
      [sigHandler]
    else if fastCtxTimeout ≤ elapsed2 then
      [sigHandler]
    else
      sigHandler :: dispatchLoop behavior rest elapsed2

/-- Go `dispatchSignals(ctx, signal)`: under the read lock, return if the
signal has no map entry, else iterate its handler list in reverse
registration order.  The registry is only read, never written, so the state
is returned unchanged together with the invocation trace. -/
def dispatchSignals (behavior : HandlerPtr → HandlerOutcome × Nat)
    (st : SignalsState) (sig : Sig) : List HandlerPtr × SignalsState :=
  match lookupSig st.signals sig with
  | none => ([], st)
  | some sigHandlers => (dispatchLoop behavior sigHandlers.reverse 0, st)

/-- Total running time of a list of handlers under a behavior map. -/
def sumDur (behavior : HandlerPtr → HandlerOutcome × Nat)
    (l : List HandlerPtr) : Nat :=
  (l.map (fun h => (behavior h).2)).sum

/-- `reachesNext behavior elapsed l = true` states that processing the
handlers `l` starting at cumulative time `elapsed` triggers neither break of
the dispatch loop: no handler in `l` returns stop-propagation, and the
shared deadline has not elapsed when each returns. -/
def reachesNext (behavior : HandlerPtr → HandlerOutcome × Nat) :
    Nat → List HandlerPtr → Bool
  | _, [] => true
  | elapsed, h :: rest =>
    decide ((behavior h).1 ≠ HandlerOutcome.stopPropagation) &&
    decide (elapsed + (behavior h).2 < fastCtxTimeout) &&
    reachesNext behavior (elapsed + (behavior h).2) rest

/-! ## Finalizers (globalContext.go)

A finalizer is a labelled state transformer; `_runFinalizers` returns the
trace of labels in invocation order together with the final state, which
makes the sequential (state-threading) execution order observable. -/

/-- Go `RegisterFinalizer(fn func())`: append to `_finalizers`. -/
def RegisterFinalizer {σ : Type} (finalizers : List (Nat × (σ → σ)))
    (fn : Nat × (σ → σ)) : List (Nat × (σ → σ)) :=
  finalizers ++ [fn]

/-- Sequential execution of a list of labelled state transformers: each
starts from the state the previous one returned. -/
def runSeq {σ : Type} : List (Nat × (σ → σ)) → σ → List Nat × σ
  | [], s => ([], s)
  | f :: rest, s =>
    let r := runSeq rest (f.2 s)
    (f.1 :: r.1, r.2)

/-- The `for idx := len(_finalizers) - 1; idx >= 0; idx--` loop of Go
`_runFinalizers` (run once `_ctx.Done()` fires), embedded as the sequential
execution of the reversed finalizer list. -/
def _runFinalizers {σ : Type} (finalizers : List (Nat × (σ → σ))) (s : σ) :
    List Nat × σ :=
  runSeq finalizers.reverse s

/-! ## Helper lemmas -/

theorem runSeq_eq {σ : Type} (l : List (Nat × (σ → σ))) (s : σ) :
    runSeq l s = (l.map Prod.fst, l.foldl (fun a f => f.2 a) s) := by
  induction l generalizing s with
  | nil => rfl
  | cons f rest ih => simp [runSeq, ih]

theorem dispatchLoop_append (behavior : HandlerPtr → HandlerOutcome × Nat)
    (l1 l2 : List HandlerPtr) (elapsed : Nat)
    (hrun : reachesNext behavior elapsed l1 = true) :
    dispatchLoop behavior (l1 ++ l2) elapsed =
      l1 ++ dispatchLoop behavior l2 (elapsed + sumDur behavior l1) := by
  induction l1 generalizing elapsed with
  | nil => simp [sumDur]
  | cons h t ih =>
    simp only [reachesNext, Bool.and_eq_true, decide_eq_true_eq] at hrun
    obtain ⟨⟨hstop, hfast⟩, hrest⟩ := hrun
    simp only [List.cons_append, dispatchLoop, if_neg hstop,
      if_neg (Nat.not_le.mpr hfast), List.append_eq]
    rw [ih _ hrest]
    have harith : elapsed + (behavior h).2 + sumDur behavior t =
        elapsed + sumDur behavior (h :: t) := by
      simp [sumDur]; omega
    rw [harith]

theorem requestSlow_preserves_Started (reason : String) (t : Termination) :
    (RequestSlowTermination reason t).2.Started = t.Started := by
  unfold RequestSlowTermination
  split_ifs <;> rfl

/-! ## Claim theorems -/

/-- Claim C1 counterexample: after a trigger at time 0 followed by a granted
prolongation (state started, prolonged, deadline 11500), a later trigger at
time 5 does change TerminationState — it resets `Prolonged` from true back
to false and moves `Deadline` backward from 11500 to 1505. -/
theorem C1_trigger_counterexample :
    (termRun [TermOp.trigger 0, TermOp.requestSlow "r"]).Started = true ∧
    (termRun [TermOp.trigger 0, TermOp.requestSlow "r"]).Prolonged = true ∧
    (termRun [TermOp.trigger 0, TermOp.requestSlow "r"]).Deadline = 11500 ∧
    termRun [TermOp.trigger 0, TermOp.requestSlow "r", TermOp.trigger 5] =
      { Started := true, StartedAt := 5, Prolonged := false,
        Deadline := 1505 } ∧
    (1505 : Nat) < 11500 := by
  refine ⟨rfl, rfl, rfl, rfl, by omega⟩

/-- Claim C1 (amended): a termination trigger with the default handler is
effective from every state, not only from Idle — it unconditionally
re-initializes TerminationState to `{Started := true, StartedAt := now,
Prolonged := false, Deadline := now + gracefullShutdownTimeout}`, so after
termination has started a later trigger can move the deadline backward and
reset `Prolonged` to false.  `Started` itself, once true, stays true under
every operation. -/
theorem C1_trigger_reinitializes (t : Termination) (now : Nat) (op : TermOp) :
    termStep t (TermOp.trigger now) =
      { Started := true, StartedAt := now, Prolonged := false,
        Deadline := now + gracefullShutdownTimeout } ∧
    (t.Started = true → (termStep t op).Started = true) := by
  refine ⟨rfl, fun hs => ?_⟩
  cases op with
  | trigger n => rfl
  | requestSlow reason => rw [termStep, requestSlow_preserves_Started, hs]

/-- A started and already-prolonged termination state, used as the concrete
input of the C1 amended theorem witness. -/
def startedProlongedState : Termination :=
  { Started := true, StartedAt := 0, Prolonged := true, Deadline := 11500 }

/-- A started but not yet prolonged termination state, as left by a trigger
at time 0, used as concrete witness input. -/
def startedPlainState : Termination :=
  { Started := true, StartedAt := 0, Prolonged := false, Deadline := 1500 }

/-- Claim C1 amended theorem witness at a started, prolonged state. -/
theorem C1_trigger_reinitializes_witness :
    termStep startedProlongedState (TermOp.trigger 5) =
      { Started := true, StartedAt := 5, Prolonged := false,
        Deadline := 5 + gracefullShutdownTimeout } ∧
    (termStep startedProlongedState (TermOp.requestSlow "x")).Started = true :=
  ⟨(C1_trigger_reinitializes startedProlongedState 5
      (TermOp.requestSlow "x")).1,
   (C1_trigger_reinitializes startedProlongedState 5
      (TermOp.requestSlow "x")).2 rfl⟩

/-- Claim C2 failing case: with handlers 1 and 2 registered to signal 6
(SIGABRT), `UnbindHandlers` on the token list `[2, 3]` (handler 3 a valid
pointer bound nowhere) leaves the entry as `[1, 1, 2]`: the listed token 2
is still present and the unlisted token 1 is duplicated, instead of the
`[1]` the claim requires. -/
theorem C2_unbindHandlers_failing_case :
    lookupSig (regRun [RegOp.bind (some 1) [some 6],
        RegOp.bind (some 2) [some 6]]).signals 6 = some [1, 2] ∧
    lookupSig (regRun [RegOp.bind (some 1) [some 6],
        RegOp.bind (some 2) [some 6],
        RegOp.unbindHandlers [some 2, some 3]]).signals 6 =
      some [1, 1, 2] := by
  refine ⟨rfl, rfl⟩

/-- Claim C3 failing case: after binding handlers 1 then 2 to signal 6 and
calling `UnbindHandlers` with the two tokens `[2, 3]`, handler token 1
occurs twice in the handler list of signal 6, violating the
at-most-once invariant. -/
theorem C3_duplicate_failing_case :
    ((lookupSig (regRun [RegOp.bind (some 1) [some 6],
        RegOp.bind (some 2) [some 6],
        RegOp.unbindHandlers [some 2, some 3]]).signals 6).getD []).count 1 =
      2 := by
  rfl

/-- Claim C8 failing case: bind a handler to SIGUSR1 (signal 10, not
termination-class, so it gets subscribed), then call `UnbindAllSignals`.
The registry entry for signal 10 is gone, yet its OS subscription is still
live, because `UnbindAllSignals` never calls `signal.Reset`. -/
theorem C8_unbindAllSignals_failing_case :
    isTerminationSignal 10 = false ∧
    (regRun [RegOp.bind (some 1) [some 10]]).subscribed.contains 10 = true ∧
    lookupSig (regRun [RegOp.bind (some 1) [some 10],
        RegOp.unbindAllSignals]).signals 10 = none ∧
    (regRun [RegOp.bind (some 1) [some 10],
        RegOp.unbindAllSignals]).subscribed.contains 10 = true := by
  refine ⟨rfl, rfl, rfl, rfl⟩

/-- Claim C10: with an empty reason, `RequestSlowTermination` returns the
needs-a-reason error from every termination state — the empty-reason check
precedes the without-termination and already-requested checks — and the
state comes back unchanged; the returned error does not depend on the state
at all. -/
theorem C10_empty_reason_precedence (t : Termination) :
    RequestSlowTermination "" t = (some SlowShutdownError.needAReason, t) := by
  rfl

/-- Claim C7: `RequestSlowTermination` returns the needs-a-reason error on an
empty reason, the without-termination error when termination has not
started, and the already-requested error when a prolongation was already
granted, leaving the state unchanged on each error; the single successful
call sets `Prolonged` and extends both `Deadline` and the value reported by
`GetTerminationDeadline` by exactly `prolongedShutdownTimeout`, which is
10 seconds (10000 ms). -/
theorem C7_requestSlowTermination_cases (reason : String) (t : Termination) :
    (reason = "" →
      RequestSlowTermination reason t =
        (some SlowShutdownError.needAReason, t)) ∧
    (reason ≠ "" → t.Started = false →
      RequestSlowTermination reason t =
        (some SlowShutdownError.withoutTermination, t)) ∧
    (reason ≠ "" → t.Started = true → t.Prolonged = true →
      RequestSlowTermination reason t =
        (some SlowShutdownError.requestedAlready, t)) ∧
    (reason ≠ "" → t.Started = true → t.Prolonged = false →
      (RequestSlowTermination reason t).1 = none ∧
      (RequestSlowTermination reason t).2.Prolonged = true ∧
      (RequestSlowTermination reason t).2.Deadline =
        t.Deadline + prolongedShutdownTimeout ∧
      GetTerminationDeadline (RequestSlowTermination reason t).2 =
        GetTerminationDeadline t + prolongedShutdownTimeout ∧
      prolongedShutdownTimeout = 10000) := by
  refine ⟨fun hr => ?_, fun hr hs => ?_, fun hr hs hp => ?_,
    fun hr hs hp => ?_⟩
  · simp [RequestSlowTermination, hr]
  · simp [RequestSlowTermination, hr, hs]
  · simp [RequestSlowTermination, hr, hs, hp]
  · simp [RequestSlowTermination, GetTerminationDeadline, hr, hs, hp,
      prolongedShutdownTimeout]

/-- Claim C7 witness: the four cases of the theorem discharged at concrete
states (an unstarted state, a started state, and a started prolonged
state). -/
theorem C7_requestSlowTermination_cases_witness :
    RequestSlowTermination "" initialTermination =
      (some SlowShutdownError.needAReason, initialTermination) ∧
    RequestSlowTermination "draining" initialTermination =
      (some SlowShutdownError.withoutTermination, initialTermination) ∧
    RequestSlowTermination "draining" startedProlongedState =
      (some SlowShutdownError.requestedAlready, startedProlongedState) ∧
    ((RequestSlowTermination "draining" startedPlainState).1 = none ∧
      (RequestSlowTermination "draining" startedPlainState).2.Prolonged =
        true ∧
      (RequestSlowTermination "draining" startedPlainState).2.Deadline =
        startedPlainState.Deadline + prolongedShutdownTimeout ∧
      GetTerminationDeadline
          (RequestSlowTermination "draining" startedPlainState).2 =
        GetTerminationDeadline startedPlainState + prolongedShutdownTimeout ∧
      prolongedShutdownTimeout = 10000) :=
  ⟨(C7_requestSlowTermination_cases "" initialTermination).1 rfl,
   (C7_requestSlowTermination_cases "draining" initialTermination).2.1
     (by decide) rfl,
   (C7_requestSlowTermination_cases "draining" startedProlongedState).2.2.1
     (by decide) rfl rfl,
   (C7_requestSlowTermination_cases "draining" startedPlainState).2.2.2
     (by decide) rfl rfl⟩

/-- Claim C4: with handlers `h1, h2, h3` registered to a signal in that
order, and assuming no handler returns stop-propagation and the shared
deadline has not elapsed when `h3` and when `h2` return, one occurrence of
the signal invokes exactly `h3`, then `h2`, then `h1`, and afterwards the
registry state is unchanged and still lists `[h1, h2, h3]` for the signal. -/
theorem C4_dispatch_reverse_order
    (behavior : HandlerPtr → HandlerOutcome × Nat) (st : SignalsState)
    (sig : Sig) (h1 h2 h3 : HandlerPtr)
    (hreg : lookupSig st.signals sig = some [h1, h2, h3])
    (hstop : ∀ h ∈ [h1, h2, h3],
      (behavior h).1 ≠ HandlerOutcome.stopPropagation)
    (hfast3 : (behavior h3).2 < fastCtxTimeout)
    (hfast2 : (behavior h3).2 + (behavior h2).2 < fastCtxTimeout) :
    (dispatchSignals behavior st sig).1 = [h3, h2, h1] ∧
    (dispatchSignals behavior st sig).2 = st ∧
    lookupSig (dispatchSignals behavior st sig).2.signals sig =
      some [h1, h2, h3] := by
  have e3 := hstop h3 (by simp)
  have e2 := hstop h2 (by simp)
  have hdisp : dispatchSignals behavior st sig =
      (dispatchLoop behavior [h3, h2, h1] 0, st) := by
    simp [dispatchSignals, hreg]
  have hreach : reachesNext behavior 0 [h3, h2] = true := by
    simp only [reachesNext, Bool.and_eq_true, decide_eq_true_eq]
    exact ⟨⟨e3, by omega⟩, ⟨e2, by omega⟩, True.intro⟩
  have hone : dispatchLoop behavior [h1]
      (0 + sumDur behavior [h3, h2]) = [h1] := by
    simp only [dispatchLoop]
    split_ifs <;> rfl
  have htrace : dispatchLoop behavior [h3, h2, h1] 0 = [h3, h2, h1] := by
    have happ := dispatchLoop_append behavior [h3, h2] [h1] 0 hreach
    simp only [List.cons_append, List.nil_append] at happ
    rw [happ, hone]
  rw [hdisp]
  exact ⟨htrace, rfl, hreg⟩

/-- Registry state used as concrete witness input for the dispatch claims:
handlers 1, 2, 3 bound in that order to signal 6 (SIGABRT). -/
def dispatchWitnessState : SignalsState :=
  regRun [RegOp.bind (some 1) [some 6], RegOp.bind (some 2) [some 6],
    RegOp.bind (some 3) [some 6]]

/-- Claim C4 witness: three 10 ms handlers bound to signal 6 run as 3, 2, 1
and leave the registry untouched. -/
theorem C4_dispatch_reverse_order_witness :
    (dispatchSignals (fun _ => (HandlerOutcome.ok, 10))
        dispatchWitnessState 6).1 = [3, 2, 1] ∧
    (dispatchSignals (fun _ => (HandlerOutcome.ok, 10))
        dispatchWitnessState 6).2 = dispatchWitnessState ∧
    lookupSig (dispatchSignals (fun _ => (HandlerOutcome.ok, 10))
        dispatchWitnessState 6).2.signals 6 = some [1, 2, 3] :=
  C4_dispatch_reverse_order (fun _ => (HandlerOutcome.ok, 10))
    dispatchWitnessState 6 1 2 3 rfl (by decide) (by decide) (by decide)

/-- Claim C5: when the dispatch loop reaches a handler `h` that returns
stop-propagation (`l1` lists the handlers invoked before it, none of which
stops or exhausts the budget), dispatch halts immediately after `h`: the
trace is exactly `l1 ++ [h]`, and no handler registered earlier than `h`
(the members of `l2`, which the reverse iteration would visit after `h`) is
invoked for that occurrence. -/
theorem C5_stop_propagation_halts
    (behavior : HandlerPtr → HandlerOutcome × Nat) (st : SignalsState)
    (sig : Sig) (L l1 l2 : List HandlerPtr) (h : HandlerPtr)
    (hreg : lookupSig st.signals sig = some L)
    (hrev : L.reverse = l1 ++ h :: l2)
    (hrun : reachesNext behavior 0 l1 = true)
    (hstop : (behavior h).1 = HandlerOutcome.stopPropagation) :
    (dispatchSignals behavior st sig).1 = l1 ++ [h] ∧
    ∀ g ∈ l2, g ∉ l1 → g ≠ h →
      g ∉ (dispatchSignals behavior st sig).1 := by
  have hdisp : dispatchSignals behavior st sig =
      (dispatchLoop behavior L.reverse 0, st) := by
    simp [dispatchSignals, hreg]
  have htr : (dispatchSignals behavior st sig).1 = l1 ++ [h] := by
    rw [hdisp, hrev]
    rw [dispatchLoop_append behavior l1 (h :: l2) 0 hrun]
    simp only [dispatchLoop, if_pos hstop]
  refine ⟨htr, fun g hg2 hg1 hgh => ?_⟩
  rw [htr]
  intro hmem
  rcases List.mem_append.mp hmem with hin | hin
  · exact hg1 hin
  · exact hgh (List.mem_singleton.mp hin)

/-- Claim C5 witness: handler 2 stops propagation, so one occurrence of
signal 6 invokes 3 then 2 and never invokes 1. -/
theorem C5_stop_propagation_halts_witness :
    (dispatchSignals
        (fun p => (if p = 2 then HandlerOutcome.stopPropagation
          else HandlerOutcome.ok, 10)) dispatchWitnessState 6).1 = [3] ++ [2] ∧
    ∀ g ∈ [1], g ∉ [3] → g ≠ 2 →
      g ∉ (dispatchSignals
        (fun p => (if p = 2 then HandlerOutcome.stopPropagation
          else HandlerOutcome.ok, 10)) dispatchWitnessState 6).1 :=
  C5_stop_propagation_halts
    (fun p => (if p = 2 then HandlerOutcome.stopPropagation
      else HandlerOutcome.ok, 10))
    dispatchWitnessState 6 [1, 2, 3] [3] [1] 2 rfl rfl (by decide) (by decide)

/-- Claim C6: when the shared deadline has elapsed by the moment handler `h`
returns (and `h` itself does not stop propagation), the remaining handlers
`l2` are skipped while the trace of the already-invoked handlers
`l1 ++ [h]` stands — in particular `h`, during whose run the deadline
elapsed, is still invoked to completion, because the deadline is only
checked between invocations. -/
theorem C6_deadline_skips_rest
    (behavior : HandlerPtr → HandlerOutcome × Nat) (st : SignalsState)
    (sig : Sig) (L l1 l2 : List HandlerPtr) (h : HandlerPtr)
    (hreg : lookupSig st.signals sig = some L)
    (hrev : L.reverse = l1 ++ h :: l2)
    (hrun : reachesNext behavior 0 l1 = true)
    (hstop : (behavior h).1 ≠ HandlerOutcome.stopPropagation)
    (helapsed : fastCtxTimeout ≤ sumDur behavior l1 + (behavior h).2) :
    (dispatchSignals behavior st sig).1 = l1 ++ [h] ∧
    ∀ g ∈ l2, g ∉ l1 → g ≠ h →
      g ∉ (dispatchSignals behavior st sig).1 := by
  have hdisp : dispatchSignals behavior st sig =
      (dispatchLoop behavior L.reverse 0, st) := by
    simp [dispatchSignals, hreg]
  have htr : (dispatchSignals behavior st sig).1 = l1 ++ [h] := by
    rw [hdisp, hrev]
    rw [dispatchLoop_append behavior l1 (h :: l2) 0 hrun]
    simp only [dispatchLoop, if_neg hstop,
      if_pos (show fastCtxTimeout ≤ 0 + sumDur behavior l1 + (behavior h).2
        by omega)]
  refine ⟨htr, fun g hg2 hg1 hgh => ?_⟩
  rw [htr]
  intro hmem
  rcases List.mem_append.mp hmem with hin | hin
  · exact hg1 hin
  · exact hgh (List.mem_singleton.mp hin)

/-- Claim C6 witness: every handler runs 60 ms, so the 100 ms budget elapses
while handler 2 runs; 3 and 2 are invoked, 1 is skipped. -/
theorem C6_deadline_skips_rest_witness :
    (dispatchSignals (fun _ => (HandlerOutcome.ok, 60))
        dispatchWitnessState 6).1 = [3] ++ [2] ∧
    ∀ g ∈ [1], g ∉ [3] → g ≠ 2 →
      g ∉ (dispatchSignals (fun _ => (HandlerOutcome.ok, 60))
        dispatchWitnessState 6).1 :=
  C6_deadline_skips_rest (fun _ => (HandlerOutcome.ok, 60))
    dispatchWitnessState 6 [1, 2, 3] [3] [1] 2 rfl rfl (by decide) (by decide)
    (by decide)

/-- Claim C9: once the done-signal fires, `_runFinalizers` runs the
registered finalizers in exactly reverse registration order (the trace of
labels is the reverse of the registration trace, so each registration runs
exactly once — label counts are preserved), and sequentially: the final
state is the right-fold composition, in which each finalizer receives the
state returned by the finalizer registered after it. -/
theorem C9_finalizers_reverse_once_seq {σ : Type}
    (fins : List (Nat × (σ → σ))) (s : σ) :
    (_runFinalizers fins s).1 = (fins.map Prod.fst).reverse ∧
    (∀ n : Nat,
      (_runFinalizers fins s).1.count n = (fins.map Prod.fst).count n) ∧
    (_runFinalizers fins s).2 = fins.foldr (fun f a => f.2 a) s := by
  have h1 : _runFinalizers fins s =
      ((fins.map Prod.fst).reverse, fins.foldr (fun f a => f.2 a) s) := by
    unfold _runFinalizers
    rw [runSeq_eq]
    rw [List.map_reverse, List.foldl_reverse]
  rw [h1]
  refine ⟨rfl, fun n => ?_, rfl⟩
  exact List.count_reverse n (fins.map Prod.fst)

end XCommon
